import Mathlib

/-!
Verification of the smol-go/smol-parser JSON scanner and recursive-descent
parser, shallowly embedded from the Go source (the Lexer and Parser of the
main package in pkg/token/token.go).

Modelling conventions:
- A Go string is a byte sequence; we model it as `List Nat` (each entry one
  byte value).  Go indexing `input[pos]` with the out-of-range sentinel 0 is
  `List.getD input pos 0`.
- Go `rune` (int32) is modelled as `Int`; the Go conversion `string(result)`
  from a rune slice re-encodes every rune in UTF-8, replacing invalid runes
  (negative, surrogate, out of range) by U+FFFD, exactly as Go does.
- The character-level loops of the Lexer (skipWhitespace, readString,
  readNumber, readIdentifier) each strictly consume input on every
  iteration, so they run at most `input.length + 2` iterations; they are
  written with that iteration bound as an explicit structural counter, which
  therefore never exhausts.  The bound keeps every definition computable by
  kernel reduction.
- The Parser is genuinely partial: its advance method discards the error
  returned by NextToken at every call site (see the Go source), leaving the
  current token and the lexer unchanged, so parseValue can recurse forever
  on inputs such as "[@]".  The parser functions therefore take explicit
  fuel and return `none` when the fuel is exhausted; a run of the Go code
  terminates with result r iff the fueled model returns `some r` for every
  sufficiently large fuel (fuel monotonicity is proved below).
- Go `strconv.ParseFloat(s, 64)` is modelled as exact rational conversion of
  the decimal lexeme (`goParseFloat`).  The rounding of the result to the
  nearest binary64 and the overflow check for huge exponents are not
  modelled; every numeral appearing in the claims is a small integer, for
  which conversion is exact and in range.
- Go `map[string]interface{}` is modelled as an association list with
  in-place update on an existing key (`insertKV`); the same key sequence
  produces the same list, and Go map equality (reflect.DeepEqual) agrees
  with list equality on all objects compared in the claims, which arise
  from identical insertion sequences.
- Go errors are created by fmt.Errorf at eleven distinct call sites; the
  error values are modelled by the inductive `GoErr`, one constructor per
  call site, carrying exactly the data interpolated into the format string.
-/

namespace SmolParser

/-- Bytes of a Go string. -/
abbrev Bytes := List Nat

/-- Go: TokenType (int constants TokenEOF .. TokenNull, in source order). -/
inductive TokType where
  | eof | lbrace | rbrace | lbrack | rbrack | colon | comma
  | str | num | tru | fls | nul
deriving DecidableEq, Repr

/-- Go: struct Token { Type TokenType; Value string; Pos int }. -/
structure Tok where
  type : TokType
  value : Bytes
  pos : Nat
deriving DecidableEq, Repr

/-- The Go error values, one constructor per fmt.Errorf call site (plus the
error of strconv.ParseFloat), carrying the interpolated data.  None of the
constructors carries a position. -/
inductive GoErr where
  | invalidUnicode (hex : Bytes)     -- "invalid unicode escape: %s"
  | invalidEscape (c : Nat)          -- "invalid escape sequence: \%c"
  | unterminated                     -- "unterminated string"
  | unexpectedIdent (s : Bytes)      -- "unexpected identifier: %s"
  | unexpectedChar (c : Nat)         -- "unexpected character: %c"
  | numError (s : Bytes)             -- error of strconv.ParseFloat on s
  | unexpectedToken (t : TokType)    -- "unexpected token: %v"
  | expectedStringKey (t : TokType)  -- "expected string key, got %v"
  | expectedColon                    -- "expected colon after key"
  | expectedCommaOrBrace             -- "expected comma or closing brace"
  | expectedCommaOrBracket           -- "expected comma or closing bracket"
deriving DecidableEq, Repr

/-- Go: struct Lexer { input string; pos int; ch byte }. -/
structure Lexer where
  input : Bytes
  pos : Nat
  ch : Nat
deriving DecidableEq, Repr

/-- Go Lexer.readChar: ch := input[pos] (0 past the end); pos++. -/
def readChar (l : Lexer) : Lexer :=
  { l with ch := l.input.getD l.pos 0, pos := l.pos + 1 }

/-- Go NewLexer: zero-valued Lexer for the input, then one readChar. -/
def NewLexer (input : Bytes) : Lexer :=
  readChar { input := input, pos := 0, ch := 0 }

/-- The whitespace test of Go skipWhitespace: space, tab, newline, CR. -/
def isWSb (c : Nat) : Bool :=
  c == 32 || c == 9 || c == 10 || c == 13

/-- unicode.IsDigit on a byte widened to a rune: the ASCII digits. -/
def isDigitb (c : Nat) : Bool :=
  48 ≤ c && c ≤ 57

/-- unicode.IsLetter on a byte widened to a rune: the letters of the
Basic Latin and Latin-1 Supplement blocks. -/
def goIsLetter (c : Nat) : Bool :=
  (65 ≤ c && c ≤ 90) || (97 ≤ c && c ≤ 122) ||
  c == 170 || c == 181 || c == 186 ||
  (192 ≤ c && c ≤ 214) || (216 ≤ c && c ≤ 246) || (248 ≤ c && c ≤ 255)

/-- Go skipWhitespace, with its iteration bound as first argument: while
the current char is whitespace, readChar.  Each iteration strictly consumes
input, so a bound of input.length + 2 is never reached. -/
def skipWhitespaceF : Nat → Lexer → Lexer
  | 0, l => l
  | f + 1, l => if isWSb l.ch then skipWhitespaceF f (readChar l) else l

/-- Go Lexer.skipWhitespace. -/
def skipWhitespace (l : Lexer) : Lexer :=
  skipWhitespaceF (l.input.length + 2) l

/-- The digit-run loops of Go readNumber (for unicode.IsDigit(rune(l.ch))
{ l.readChar() }), with iteration bound. -/
def skipDigitsF : Nat → Lexer → Lexer
  | 0, l => l
  | f + 1, l => if isDigitb l.ch then skipDigitsF f (readChar l) else l

/-- The letter-run loop of Go readIdentifier, with iteration bound. -/
def skipLettersF : Nat → Lexer → Lexer
  | 0, l => l
  | f + 1, l => if goIsLetter l.ch then skipLettersF f (readChar l) else l

/-- The four-iteration hex loop of the \u escape in Go readString:
collect the current char and readChar, n times. -/
def readHexN : Nat → Lexer → Bytes × Lexer
  | 0, l => ([], l)
  | n + 1, l =>
    let r := readHexN n (readChar l)
    (l.ch :: r.1, r.2)

/-- Value of one hex digit, as accepted by strconv.ParseInt base 16. -/
def hexVal (c : Nat) : Option Nat :=
  if 48 ≤ c ∧ c ≤ 57 then some (c - 48)
  else if 97 ≤ c ∧ c ≤ 102 then some (c - 87)
  else if 65 ≤ c ∧ c ≤ 70 then some (c - 55)
  else none

/-- Accumulate hex digits; none on the first non-hex character. -/
def hexAcc : Bytes → Nat → Option Nat
  | [], acc => some acc
  | c :: cs, acc =>
    match hexVal c with
    | none => none
    | some v => hexAcc cs (acc * 16 + v)

/-- Go strconv.ParseInt(s, 16, 32): optional leading sign, then one or more
hex digits, value within int32 range. -/
def goParseIntHex32 (s : Bytes) : Option Int :=
  let signed : Int × Bytes :=
    match s with
    | 43 :: t => (1, t)
    | 45 :: t => (-1, t)
    | t => (1, t)
  match signed.2 with
  | [] => none
  | ds =>
    match hexAcc ds 0 with
    | none => none
    | some n =>
      let v : Int := signed.1 * n
      if -(2 ^ 31) ≤ v ∧ v ≤ 2 ^ 31 - 1 then some v else none

/-- Go string([]rune): UTF-8 encoding of one rune, with invalid runes
(negative, surrogate, above U+10FFFF) replaced by U+FFFD. -/
def utf8EncodeScalar (r : Int) : Bytes :=
  if (0 ≤ r ∧ r < 55296) ∨ (57344 ≤ r ∧ r ≤ 1114111) then
    let n := r.toNat
    if n < 128 then [n]
    else if n < 2048 then [192 + n / 64, 128 + n % 64]
    else if n < 65536 then [224 + n / 4096, 128 + (n / 64) % 64, 128 + n % 64]
    else [240 + n / 262144, 128 + (n / 4096) % 64, 128 + (n / 64) % 64, 128 + n % 64]
  else [239, 191, 189]

/-- Go string(result) for a rune slice. -/
def runesToBytes (rs : List Int) : Bytes :=
  (rs.map utf8EncodeScalar).flatten

/-- The scan loop of Go readString (for l.ch != char 34 and l.ch != 0),
with iteration bound.  Returns the rune slice built so far, or the error,
together with the lexer state at exit (Go mutates the lexer in place, so
the state at the point of an error persists).  Each iteration strictly
consumes input, so the bound is never reached; on exhaustion the
unreachable branch reports an unterminated string. -/
def readStringF : Nat → Lexer → List Int → Except GoErr (List Int) × Lexer
  | 0, l, _ => (Except.error GoErr.unterminated, l)
  | f + 1, l, acc =>
    if l.ch ≠ 34 ∧ l.ch ≠ 0 then
      if l.ch = 92 then
        let l1 := readChar l
        if l1.ch = 34 ∨ l1.ch = 92 ∨ l1.ch = 47 then
          readStringF f (readChar l1) (acc ++ [(l1.ch : Int)])
        else if l1.ch = 98 then readStringF f (readChar l1) (acc ++ [8])
        else if l1.ch = 102 then readStringF f (readChar l1) (acc ++ [12])
        else if l1.ch = 110 then readStringF f (readChar l1) (acc ++ [10])
        else if l1.ch = 114 then readStringF f (readChar l1) (acc ++ [13])
        else if l1.ch = 116 then readStringF f (readChar l1) (acc ++ [9])
        else if l1.ch = 117 then
          let r := readHexN 4 (readChar l1)
          match goParseIntHex32 r.1 with
          | none => (Except.error (GoErr.invalidUnicode r.1), r.2)
          | some v => readStringF f r.2 (acc ++ [v])
        else (Except.error (GoErr.invalidEscape l1.ch), l1)
      else
        readStringF f (readChar l) (acc ++ [(l.ch : Int)])
    else
      if l.ch = 34 then (Except.ok acc, readChar l)
      else (Except.error GoErr.unterminated, l)

/-- Go Lexer.readString: skip the opening quote, scan, require the closing
quote. -/
def readString (l : Lexer) : Except GoErr (List Int) × Lexer :=
  readStringF (l.input.length + 2) (readChar l) []

/-- Go Lexer.readNumber: optional minus; a single 0 or a digit run;
optional fraction digits; optional exponent.  Returns the raw lexeme
input[start : pos-1] and the final lexer state. -/
def readNumber (l : Lexer) : Bytes × Lexer :=
  let start := l.pos - 1
  let l1 := if l.ch = 45 then readChar l else l
  let l2 := if l1.ch = 48 then readChar l1 else skipDigitsF (l1.input.length + 2) l1
  let l3 := if l2.ch = 46 then skipDigitsF (l2.input.length + 2) (readChar l2) else l2
  let l4 :=
    if l3.ch = 101 ∨ l3.ch = 69 then
      let a := readChar l3
      let b := if a.ch = 43 ∨ a.ch = 45 then readChar a else a
      skipDigitsF (b.input.length + 2) b
    else l3
  ((l4.input.drop start).take (l4.pos - 1 - start), l4)

/-- Go Lexer.readIdentifier: maximal letter run, returned as the raw
lexeme input[start : pos-1]. -/
def readIdentifier (l : Lexer) : Bytes × Lexer :=
  let start := l.pos - 1
  let l1 := skipLettersF (l.input.length + 2) l
  ((l1.input.drop start).take (l1.pos - 1 - start), l1)

def trueBytes : Bytes := [116, 114, 117, 101]
def falseBytes : Bytes := [102, 97, 108, 115, 101]
def nullBytes : Bytes := [110, 117, 108, 108]

/-- Go Lexer.NextToken.  Returns the token or the error, together with the
lexer state afterwards (which, on an error, is the mutated state at the
point of the error, since Go passes the lexer by pointer). -/
def NextToken (l0 : Lexer) : Except GoErr Tok × Lexer :=
  let l := skipWhitespace l0
  let p0 := l.pos - 1
  if l.ch = 0 then (Except.ok ⟨TokType.eof, [], p0⟩, l)
  else if l.ch = 123 then (Except.ok ⟨TokType.lbrace, [], p0⟩, readChar l)
  else if l.ch = 125 then (Except.ok ⟨TokType.rbrace, [], p0⟩, readChar l)
  else if l.ch = 91 then (Except.ok ⟨TokType.lbrack, [], p0⟩, readChar l)
  else if l.ch = 93 then (Except.ok ⟨TokType.rbrack, [], p0⟩, readChar l)
  else if l.ch = 58 then (Except.ok ⟨TokType.colon, [], p0⟩, readChar l)
  else if l.ch = 44 then (Except.ok ⟨TokType.comma, [], p0⟩, readChar l)
  else if l.ch = 34 then
    match readString l with
    | (Except.error e, l1) => (Except.error e, l1)
    | (Except.ok rs, l1) => (Except.ok ⟨TokType.str, runesToBytes rs, p0⟩, l1)
  else if l.ch = 45 ∨ isDigitb l.ch then
    let r := readNumber l
    (Except.ok ⟨TokType.num, r.1, p0⟩, r.2)
  else if goIsLetter l.ch then
    let r := readIdentifier l
    if r.1 = trueBytes then (Except.ok ⟨TokType.tru, [], p0⟩, r.2)
    else if r.1 = falseBytes then (Except.ok ⟨TokType.fls, [], p0⟩, r.2)
    else if r.1 = nullBytes then (Except.ok ⟨TokType.nul, [], p0⟩, r.2)
    else (Except.error (GoErr.unexpectedIdent r.1), r.2)
  else (Except.error (GoErr.unexpectedChar l.ch), l)

/-- The parsed value tree (Go interface values: map, slice, string,
float64, bool, nil). -/
inductive Value where
  | obj : List (Bytes × Value) → Value
  | arr : List Value → Value
  | str : Bytes → Value
  | num : Rat → Value
  | bool : Bool → Value
  | null : Value
deriving Repr

/-- Go map insert obj[key] = val: replace the entry of an existing key in
place, else append. -/
def insertKV : List (Bytes × Value) → Bytes → Value → List (Bytes × Value)
  | [], k, v => [(k, v)]
  | (k1, v1) :: rest, k, v =>
    if k1 = k then (k, v) :: rest else (k1, v1) :: insertKV rest k v

/-- Go map lookup obj[key]. -/
def lookupKV : List (Bytes × Value) → Bytes → Option Value
  | [], _ => none
  | (k1, v1) :: rest, k => if k1 = k then some v1 else lookupKV rest k

/-- Split a byte list into its maximal leading ASCII-digit run and the
rest. -/
def splitDigits : Bytes → Bytes × Bytes
  | [] => ([], [])
  | c :: cs =>
    if isDigitb c then
      let r := splitDigits cs
      (c :: r.1, r.2)
    else ([], c :: cs)

/-- Decimal value of a digit run. -/
def digitsVal (ds : Bytes) : Nat :=
  ds.foldl (fun a c => a * 10 + (c - 48)) 0

/-- Go strconv.ParseFloat(s, 64) on the lexemes the scanner can produce
(characters -, +, ., digits, e, E): optional sign, a mantissa with at
least one digit (digit run, optional point, optional digit run), optional
exponent with at least one digit; the whole string must be consumed.  The
value is returned as the exact rational the decimal denotes; rounding to
binary64 and the range check for huge exponents are not modelled (all
numerals in the claims are small integers, converted exactly). -/
def pow10 : Nat → Nat
  | 0 => 1
  | n + 1 => 10 * pow10 n

def goParseFloat (s : Bytes) : Option Rat :=
  let signed : Int × Bytes :=
    match s with
    | 45 :: t => (-1, t)
    | 43 :: t => (1, t)
    | t => (1, t)
  let ipr := splitDigits signed.2
  let fpr : Bytes × Bytes :=
    match ipr.2 with
    | 46 :: t => splitDigits t
    | t => ([], t)
  if ipr.1.length + fpr.1.length = 0 then none
  else
    let mant : Int := signed.1 * (digitsVal (ipr.1 ++ fpr.1) : Int)
    let den : Nat := pow10 fpr.1.length
    match fpr.2 with
    | [] => some (mkRat mant den)
    | e :: t =>
      if e = 101 ∨ e = 69 then
        let esigned : Bool × Bytes :=
          match t with
          | 45 :: u => (true, u)
          | 43 :: u => (false, u)
          | u => (false, u)
        let edr := splitDigits esigned.2
        if edr.1 = [] ∨ edr.2 ≠ [] then none
        else
          let ex := digitsVal edr.1
          some (if esigned.1 then mkRat mant (den * pow10 ex)
                else mkRat (mant * (pow10 ex : Int)) den)
      else none

/-- Go: struct Parser { lexer *Lexer; curToken Token }. -/
structure Parser where
  lexer : Lexer
  curToken : Tok
deriving Repr

/-- Go NewParser: make the lexer, pull the first token; this is the one
place the error of NextToken is checked. -/
def NewParser (input : Bytes) : Except GoErr Parser :=
  match NextToken (NewLexer input) with
  | (Except.error e, _) => Except.error e
  | (Except.ok t, l1) => Except.ok ⟨l1, t⟩

/-- Go Parser.advance as actually used: every call site discards the
returned error, so on a lex error the current token stays unchanged while
the lexer keeps whatever state NextToken left it in. -/
def advanceD (p : Parser) : Parser :=
  match NextToken p.lexer with
  | (Except.ok t, l1) => ⟨l1, t⟩
  | (Except.error _, l1) => ⟨l1, p.curToken⟩

/-- Selector for the mutually recursive Go parser functions, folded into
one fueled function so that the recursion is structural on the fuel:
val is parseValue, objStart and arrStart are the prologues of parseObject
and parseArray, objLoop and arrLoop their for-loops with the accumulated
object and array. -/
inductive PK where
  | val : PK
  | objStart : PK
  | objLoop : List (Bytes × Value) → PK
  | arrStart : PK
  | arrLoop : List Value → PK

/-- The Go recursive-descent parser (parseValue, parseObject, parseArray
of pkg/token/token.go), with explicit fuel; `none` means the fuel ran out
(the Go code diverges on inputs where every fuel returns none, and returns
the unique `some` result otherwise, by fuel monotonicity below).  Note the
Go code pattern `if t == A { .. } ; if t != B { error } ; ..` appears here
as the equivalent if/else chain. -/
def parseF : Nat → PK → Parser → Option (Except GoErr (Value × Parser))
  | 0, _, _ => none
  | f + 1, PK.val, p =>
    match p.curToken.type with
    | TokType.lbrace => parseF f PK.objStart p
    | TokType.lbrack => parseF f PK.arrStart p
    | TokType.str => some (Except.ok (Value.str p.curToken.value, advanceD p))
    | TokType.num =>
      match goParseFloat p.curToken.value with
      | none => some (Except.error (GoErr.numError p.curToken.value))
      | some q => some (Except.ok (Value.num q, advanceD p))
    | TokType.tru => some (Except.ok (Value.bool true, advanceD p))
    | TokType.fls => some (Except.ok (Value.bool false, advanceD p))
    | TokType.nul => some (Except.ok (Value.null, advanceD p))
    | t => some (Except.error (GoErr.unexpectedToken t))
  | f + 1, PK.objStart, p =>
    let p1 := advanceD p
    if p1.curToken.type = TokType.rbrace then
      some (Except.ok (Value.obj [], advanceD p1))
    else parseF f (PK.objLoop []) p1
  | f + 1, PK.objLoop obj, p =>
    if p.curToken.type = TokType.str then
      let key := p.curToken.value
      let p2 := advanceD p
      if p2.curToken.type = TokType.colon then
        let p3 := advanceD p2
        match parseF f PK.val p3 with
        | none => none
        | some (Except.error e) => some (Except.error e)
        | some (Except.ok (v, p4)) =>
          let obj1 := insertKV obj key v
          if p4.curToken.type = TokType.rbrace then
            some (Except.ok (Value.obj obj1, advanceD p4))
          else if p4.curToken.type = TokType.comma then
            parseF f (PK.objLoop obj1) (advanceD p4)
          else some (Except.error GoErr.expectedCommaOrBrace)
      else some (Except.error GoErr.expectedColon)
    else some (Except.error (GoErr.expectedStringKey p.curToken.type))
  | f + 1, PK.arrStart, p =>
    let p1 := advanceD p
    if p1.curToken.type = TokType.rbrack then
      some (Except.ok (Value.arr [], advanceD p1))
    else parseF f (PK.arrLoop []) p1
  | f + 1, PK.arrLoop arr, p =>
    match parseF f PK.val p with
    | none => none
    | some (Except.error e) => some (Except.error e)
    | some (Except.ok (v, p2)) =>
      let arr1 := arr ++ [v]
      if p2.curToken.type = TokType.rbrack then
        some (Except.ok (Value.arr arr1, advanceD p2))
      else if p2.curToken.type = TokType.comma then
        parseF f (PK.arrLoop arr1) (advanceD p2)
      else some (Except.error GoErr.expectedCommaOrBracket)

/-- Go Parser.parseValue. -/
def parseValue (f : Nat) (p : Parser) : Option (Except GoErr (Value × Parser)) :=
  parseF f PK.val p

/-- Go package-level Parse: NewParser (whose error is checked), then
parseValue; the final parser state is dropped, the input after the
top-level value is never examined. -/
def Parse (f : Nat) (input : Bytes) : Option (Except GoErr Value) :=
  match NewParser input with
  | Except.error e => some (Except.error e)
  | Except.ok p =>
    match parseF f PK.val p with
    | none => none
    | some (Except.error e) => some (Except.error e)
    | some (Except.ok (v, _)) => some (Except.ok v)

/-- The Go code never returns on the given input: the fueled model runs
out however much fuel it is given. -/
def ParseDiverges (input : Bytes) : Prop :=
  ∀ f, Parse f input = none

/-! ## General lemmas about the model -/

/-- Fuel monotonicity: once the fueled parser returns an answer, any larger
fuel returns the same answer.  This is what makes the fueled model a
function of the input alone on terminating runs. -/
theorem parseF_mono : ∀ {f g : Nat}, f ≤ g → ∀ {k p r},
    parseF f k p = some r → parseF g k p = some r := by
  intro f
  induction f with
  | zero =>
    intro g _ k p r h
    simp [parseF] at h
  | succ n ih =>
    intro g hg k p r h
    obtain ⟨m, rfl⟩ : ∃ m, g = m + 1 := ⟨g - 1, by omega⟩
    have hnm : n ≤ m := by omega
    cases k with
    | val =>
      simp only [parseF] at h ⊢
      cases ht : p.curToken.type <;> simp only [ht] at h ⊢ <;>
        first
          | exact h
          | exact ih hnm h
    | objStart =>
      simp only [parseF] at h ⊢
      by_cases hb : (advanceD p).curToken.type = TokType.rbrace
      · rw [if_pos hb] at h ⊢; exact h
      · rw [if_neg hb] at h ⊢; exact ih hnm h
    | objLoop obj =>
      simp only [parseF] at h ⊢
      by_cases h1 : p.curToken.type = TokType.str
      · rw [if_pos h1] at h ⊢
        by_cases h2 : (advanceD p).curToken.type = TokType.colon
        · rw [if_pos h2] at h ⊢
          cases hv : parseF n PK.val (advanceD (advanceD p)) with
          | none => rw [hv] at h; exact absurd h (by simp)
          | some x =>
            rw [hv] at h
            rw [ih hnm hv]
            cases x with
            | error e => exact h
            | ok vp =>
              obtain ⟨v, p4⟩ := vp
              simp only at h ⊢
              by_cases h3 : p4.curToken.type = TokType.rbrace
              · rw [if_pos h3] at h ⊢; exact h
              · rw [if_neg h3] at h ⊢
                by_cases h4 : p4.curToken.type = TokType.comma
                · rw [if_pos h4] at h ⊢; exact ih hnm h
                · rw [if_neg h4] at h ⊢; exact h
        · rw [if_neg h2] at h ⊢; exact h
      · rw [if_neg h1] at h ⊢; exact h
    | arrStart =>
      simp only [parseF] at h ⊢
      by_cases hb : (advanceD p).curToken.type = TokType.rbrack
      · rw [if_pos hb] at h ⊢; exact h
      · rw [if_neg hb] at h ⊢; exact ih hnm h
    | arrLoop arr =>
      simp only [parseF] at h ⊢
      cases hv : parseF n PK.val p with
      | none => rw [hv] at h; exact absurd h (by simp)
      | some x =>
        rw [hv] at h
        rw [ih hnm hv]
        cases x with
        | error e => exact h
        | ok vp =>
          obtain ⟨v, p2⟩ := vp
          simp only at h ⊢
          by_cases h3 : p2.curToken.type = TokType.rbrack
          · rw [if_pos h3] at h ⊢; exact h
          · rw [if_neg h3] at h ⊢
            by_cases h4 : p2.curToken.type = TokType.comma
            · rw [if_pos h4] at h ⊢; exact ih hnm h
            · rw [if_neg h4] at h ⊢; exact h

/-- Fuel monotonicity lifted to the public Parse. -/
theorem Parse_mono {f g : Nat} (hfg : f ≤ g) {s : Bytes} {r : Except GoErr Value}
    (h : Parse f s = some r) : Parse g s = some r := by
  simp only [Parse] at h ⊢
  cases hp : NewParser s with
  | error e => rw [hp] at h; exact h
  | ok p =>
    rw [hp] at h
    simp only at h ⊢
    cases hv : parseF f PK.val p with
    | none => rw [hv] at h; exact absurd h (by simp)
    | some x => rw [hv] at h; rw [parseF_mono hfg hv]; exact h

theorem isWSb_ne_zero {c : Nat} (h : isWSb c = true) : c ≠ 0 := by
  intro h0
  subst h0
  simp [isWSb] at h

/-- On an input consisting only of whitespace bytes, the whitespace loop
runs to the end of the input and leaves the sentinel 0 as current char,
provided the iteration bound covers the remaining input. -/
theorem skipWhitespaceF_allWS : ∀ (f : Nat) (l : Lexer),
    l.input.length + 1 ≤ l.pos + f →
    (∀ c ∈ l.input, isWSb c = true) →
    (l.ch = 0 ∨ (isWSb l.ch = true ∧ l.pos ≤ l.input.length)) →
    (skipWhitespaceF f l).ch = 0 := by
  intro f
  induction f with
  | zero =>
    intro l hb _ hch
    rcases hch with h0 | ⟨_, hp⟩
    · simpa [skipWhitespaceF] using h0
    · omega
  | succ n ih =>
    intro l hb hall hch
    by_cases hw : isWSb l.ch
    · rw [skipWhitespaceF, if_pos hw]
      have hp : l.pos ≤ l.input.length := by
        rcases hch with h0 | hh
        · rw [h0] at hw; simp [isWSb] at hw
        · exact hh.2
      apply ih
      · simp only [readChar]
        omega
      · simpa only [readChar] using hall
      · rcases Nat.lt_or_ge l.pos l.input.length with hlt | hge
        · right
          refine ⟨?_, by simp only [readChar]; omega⟩
          have hget : (readChar l).ch = l.input[l.pos] := by
            simp [readChar, List.getD, List.getElem?_eq_getElem hlt]
          rw [hget]
          exact hall _ (List.getElem_mem hlt)
        · left
          simp [readChar, List.getD, List.getElem?_eq_none_iff.mpr hge]
    · rw [skipWhitespaceF, if_neg hw]
      rcases hch with h0 | hh
      · exact h0
      · exact absurd hh.1 hw

/-- When skipping whitespace ends at the sentinel, NextToken emits the EOF
token without consuming anything further. -/
theorem NextToken_eof {l : Lexer} (h : (skipWhitespace l).ch = 0) :
    NextToken l =
      (Except.ok ⟨TokType.eof, [], (skipWhitespace l).pos - 1⟩, skipWhitespace l) := by
  simp only [NextToken]
  rw [if_pos h]

/-- Go map semantics of the object accumulator: after an insert, looking
the key up yields the inserted value (last write wins). -/
theorem lookupKV_insertKV : ∀ (obj : List (Bytes × Value)) (k : Bytes) (v : Value),
    lookupKV (insertKV obj k v) k = some v := by
  intro obj k v
  induction obj with
  | nil => simp [insertKV, lookupKV]
  | cons hd tl ih =>
    obtain ⟨k1, v1⟩ := hd
    by_cases h : k1 = k
    · simp [insertKV, h, lookupKV]
    · simp [insertKV, h, lookupKV, ih]

/-- The parser state reached on input "[@]" right after NewParser: the
current token is LeftBracket and the lexer is stopped at the at-sign.
NextToken fails there without moving, advance discards that failure and
changes nothing, so the recursion parseValue, parseArray repeats this very
state forever. -/
def stuckP : Parser := ⟨⟨[91, 64, 93], 2, 64⟩, ⟨TokType.lbrack, [], 0⟩⟩

theorem advanceD_stuckP : advanceD stuckP = stuckP := rfl

theorem stuckP_loop : ∀ f, parseF f PK.val stuckP = none ∧
    parseF f PK.arrStart stuckP = none ∧
    ∀ acc, parseF f (PK.arrLoop acc) stuckP = none := by
  intro f
  induction f with
  | zero => exact ⟨rfl, rfl, fun _ => rfl⟩
  | succ n ih =>
    refine ⟨ih.2.1, ih.2.2 [], ?_⟩
    intro acc
    simp only [parseF]
    rw [ih.1]

/-! ## The claims -/

/-- Claim C1, evaluation at the failing inputs.  The claim says the first
error encountered terminates the parse and is returned unchanged, with no
value on any erroring input.  The code discards the error of every
advance call, so on the bytes of "[1 @]" the first error to arise, the
scanning error unexpected character at the at-sign, is swallowed and a
later, different grammar error expected comma or closing bracket is
returned instead; and on the bytes of "1 @" a scanning error arises during
Parse yet Parse returns the value 1 with no error. -/
theorem claim_C1 :
    Parse 20 [91, 49, 32, 64, 93] = some (Except.error GoErr.expectedCommaOrBracket) ∧
    Parse 20 [49, 32, 64] = some (Except.ok (Value.num 1)) :=
  ⟨rfl, rfl⟩

/-- Claim C2, counterexample.  The claim says every returned error carries
the offset at which the failure was detected.  The bytes of the two inputs
given here, with expected-colon failures detected at offsets 5 and 10
respectively, produce the very same error value, so the error cannot carry
the failure offset. -/
theorem claim_C2_counterexample :
    Parse 20 [123, 34, 107, 34, 32, 34, 118, 34, 125] =
      some (Except.error GoErr.expectedColon) ∧
    Parse 20 [123, 32, 32, 32, 34, 107, 34, 32, 32, 32, 34, 118, 34, 125] =
      some (Except.error GoErr.expectedColon) :=
  ⟨rfl, rfl⟩

/-- Claim C2 as amended: on failure Parse returns an error that carries a
kind and its message data (the offending character, identifier or token
type), but no offset.  Shown on the error menagerie of the spec: the
bytes of the inputs left-brace, unterminated quote abc, object with
missing value, array with missing comma, object with numeric key, and the
identifier nul each map to their documented error kind. -/
theorem claim_C2 :
    Parse 20 [123] = some (Except.error (GoErr.expectedStringKey TokType.eof)) ∧
    Parse 20 [34, 97, 98, 99] = some (Except.error GoErr.unterminated) ∧
    Parse 20 [123, 34, 107, 34, 58, 32, 125] =
      some (Except.error (GoErr.unexpectedToken TokType.rbrace)) ∧
    Parse 20 [91, 49, 32, 50, 93] = some (Except.error GoErr.expectedCommaOrBracket) ∧
    Parse 20 [123, 49, 50, 51, 58, 34, 118, 34, 125] =
      some (Except.error (GoErr.expectedStringKey TokType.num)) ∧
    Parse 20 [110, 117, 108] = some (Except.error (GoErr.unexpectedIdent [110, 117, 108])) :=
  ⟨rfl, rfl, rfl, rfl, rfl, rfl⟩

/-- Claim C3, evaluation.  The two examples of the claim hold: the bytes
of the literal with five backslash-u escapes decode to Hello (bytes 72
101 108 108 111) and the literal a backslash-quote b decodes to the three
bytes a, quote, b.  But the general sentence fails: readString widens each
input byte to a rune, so the two-byte UTF-8 character e-acute (bytes 195
169 inside a literal) is not carried through as the scalar U+00E9 it
denotes; it comes back as the two scalars U+00C3 U+00A9, re-encoded as the
four bytes 195 131 194 169. -/
theorem claim_C3 :
    Parse 20 [34, 92, 117, 48, 48, 52, 56, 92, 117, 48, 48, 54, 53, 92, 117, 48, 48, 54, 67,
        92, 117, 48, 48, 54, 67, 92, 117, 48, 48, 54, 70, 34] =
      some (Except.ok (Value.str [72, 101, 108, 108, 111])) ∧
    Parse 20 [34, 97, 92, 34, 98, 34] = some (Except.ok (Value.str [97, 34, 98])) ∧
    Parse 20 [34, 195, 169, 34] = some (Except.ok (Value.str [195, 131, 194, 169])) :=
  ⟨rfl, rfl, rfl⟩

/-- Claim C4: the bytes of the duplicate-key object parse to an object
whose single entry for key a is the number 2, and in general inserting a
key into the object accumulator makes a later lookup return the newly
inserted value (last write wins). -/
theorem claim_C4 :
    Parse 20 [123, 34, 97, 34, 58, 49, 44, 34, 97, 34, 58, 50, 125] =
      some (Except.ok (Value.obj [([97], Value.num 2)])) ∧
    ∀ (obj : List (Bytes × Value)) (k : Bytes) (v : Value),
      lookupKV (insertKV obj k v) k = some v :=
  ⟨rfl, lookupKV_insertKV⟩

/-- Claim C5: Parse never requires the input after the top-level value to
be consumed.  Concretely, the bytes of the two example inputs, an empty
object followed by an empty array and the numeral 1 followed by the
numeral 2, both parse to the leading value with no error; and in general
whenever parseValue succeeds, Parse returns its value no matter what
parser state, hence what unconsumed input, is left over. -/
theorem claim_C5 :
    Parse 20 [123, 125, 91, 93] = some (Except.ok (Value.obj [])) ∧
    Parse 20 [49, 32, 50] = some (Except.ok (Value.num 1)) ∧
    ∀ (f : Nat) (s : Bytes) (p : Parser) (v : Value) (p1 : Parser),
      NewParser s = Except.ok p →
      parseF f PK.val p = some (Except.ok (v, p1)) →
      Parse f s = some (Except.ok v) := by
  refine ⟨rfl, rfl, ?_⟩
  intro f s p v p1 h1 h2
  simp only [Parse, h1, h2]

/-- Witness for claim C5 at the input bytes of 1 2 with fuel 4. -/
theorem claim_C5_witness : Parse 4 [49, 32, 50] = some (Except.ok (Value.num 1)) :=
  claim_C5.2.2 4 [49, 32, 50]
    ⟨⟨[49, 32, 50], 2, 32⟩, ⟨TokType.num, [49], 0⟩⟩
    (Value.num 1)
    ⟨⟨[49, 32, 50], 4, 0⟩, ⟨TokType.num, [50], 2⟩⟩
    rfl rfl

/-- Claim C6, counterexample.  The claim says the scanner recognizes the
maximal digit run, so on input 01 the number lexeme spans the whole run
01.  In fact NextToken on the bytes of 01 produces the lexeme consisting
of the single byte 0, which is not the two-byte run 01: after a leading
zero the integer part stops. -/
theorem claim_C6_counterexample :
    (NextToken (NewLexer [48, 49])).1 = Except.ok ⟨TokType.num, [48], 0⟩ ∧
    ([48] : Bytes) ≠ [48, 49] :=
  ⟨rfl, by decide⟩

/-- Claim C6 as amended: the scanner never rejects a leading zero, but
after a leading 0 the integer part is that single 0, so the input 01 lexes
as the two number tokens 0 and 1 and parses (as the top-level value) to
the number 0; for a number not starting with 0 the maximal digit run is
consumed, as on the input 123. -/
theorem claim_C6 :
    NextToken (NewLexer [48, 49]) =
      (Except.ok ⟨TokType.num, [48], 0⟩, ⟨[48, 49], 2, 49⟩) ∧
    NextToken ⟨[48, 49], 2, 49⟩ =
      (Except.ok ⟨TokType.num, [49], 1⟩, ⟨[48, 49], 3, 0⟩) ∧
    NextToken (NewLexer [49, 50, 51]) =
      (Except.ok ⟨TokType.num, [49, 50, 51], 0⟩, ⟨[49, 50, 51], 4, 0⟩) ∧
    Parse 20 [48, 49] = some (Except.ok (Value.num 0)) :=
  ⟨rfl, rfl, rfl, rfl⟩

/-- Claim C7, counterexample.  The claim asserts that inserting or
removing runs of whitespace between tokens never changes the parse
result.  Removing the whitespace run that separates the two number tokens
of 1 2 fuses them into the single token 12 and changes the result from
the number 1 to the number 12; likewise nul l fails with an
unexpected-identifier error while null parses to the null value, and
those two outcomes differ. -/
theorem claim_C7_counterexample :
    Parse 20 [49, 32, 50] = some (Except.ok (Value.num 1)) ∧
    Parse 20 [49, 50] = some (Except.ok (Value.num 12)) ∧
    (Value.num 1 : Value) ≠ Value.num 12 ∧
    Parse 20 [110, 117, 108, 32, 108] =
      some (Except.error (GoErr.unexpectedIdent [110, 117, 108])) ∧
    Parse 20 [110, 117, 108, 108] = some (Except.ok Value.null) ∧
    (some (Except.error (GoErr.unexpectedIdent [110, 117, 108])) :
        Option (Except GoErr Value)) ≠
      some (Except.ok Value.null) := by
  refine ⟨rfl, rfl, ?_, rfl, rfl, by simp⟩
  intro h
  injection h with h1
  exact absurd h1 (by decide)

/-- Claim C7 as amended: the three spec inputs, the object with key a and
value 1 surrounded by spaces, the same object spread over newline and
tab, and the same object with no whitespace at all, parse to the same
object value; and inserting further whitespace runs between tokens, as
around the colon of that object or around the brackets and comma of the
array 1, 2, leaves the result unchanged.  Removing a separating run is
not covered: it can fuse adjacent tokens (see the counterexample). -/
theorem claim_C7 :
    Parse 20 [32, 32, 123, 34, 97, 34, 58, 32, 49, 125, 32, 32] =
      Parse 20 [123, 34, 97, 34, 58, 49, 125] ∧
    Parse 20 [123, 10, 9, 34, 97, 34, 58, 32, 49, 10, 125] =
      Parse 20 [123, 34, 97, 34, 58, 49, 125] ∧
    Parse 20 [123, 34, 97, 34, 58, 49, 125] =
      some (Except.ok (Value.obj [([97], Value.num 1)])) ∧
    Parse 20 [123, 34, 97, 34, 32, 32, 58, 32, 32, 49, 125] =
      Parse 20 [123, 34, 97, 34, 58, 49, 125] ∧
    Parse 20 [91, 32, 49, 32, 44, 32, 50, 32, 93] =
      Parse 20 [91, 49, 44, 50, 93] ∧
    Parse 20 [91, 49, 44, 50, 93] =
      some (Except.ok (Value.arr [Value.num 1, Value.num 2])) :=
  ⟨rfl, rfl, rfl, rfl, rfl, rfl⟩

/-- Claim C8: Parse is deterministic.  In the fueled model the only run
parameter besides the input is the fuel, and any two runs on the same
input that return an outcome return the same outcome. -/
theorem claim_C8 (s : Bytes) (f1 f2 : Nat) (r1 r2 : Except GoErr Value)
    (h1 : Parse f1 s = some r1) (h2 : Parse f2 s = some r2) : r1 = r2 := by
  rcases Nat.le_total f1 f2 with h | h
  · have hm := Parse_mono h h1
    rw [hm] at h2
    exact Option.some.inj h2
  · have hm := Parse_mono h h2
    rw [hm] at h1
    exact (Option.some.inj h1).symm

/-- Witness for claim C8 at the numeral 1 with fuels 2 and 3. -/
theorem claim_C8_witness :
    (Except.ok (Value.num 1) : Except GoErr Value) = Except.ok (Value.num 1) :=
  claim_C8 [49] 2 3 (Except.ok (Value.num 1)) (Except.ok (Value.num 1)) rfl rfl

/-- Claim C9: parsing the empty input, or any input made of whitespace
bytes only, yields the unexpected-token error on the EOF token (Go prints
it as unexpected token 0), never a value. -/
theorem claim_C9 (s : Bytes) (f : Nat) (hall : ∀ c ∈ s, isWSb c = true) (hf : 1 ≤ f) :
    Parse f s = some (Except.error (GoErr.unexpectedToken TokType.eof)) := by
  have h0 : (skipWhitespace (NewLexer s)).ch = 0 := by
    rw [skipWhitespace]
    apply skipWhitespaceF_allWS
    · simp only [NewLexer, readChar]
      omega
    · simpa [NewLexer, readChar] using hall
    · rcases s with _ | ⟨c, cs⟩
      · left; simp [NewLexer, readChar]
      · right
        refine ⟨?_, by simp [NewLexer, readChar]⟩
        have : (NewLexer (c :: cs)).ch = c := by simp [NewLexer, readChar, List.getD]
        rw [this]
        exact hall c (by simp)
  obtain ⟨g, rfl⟩ : ∃ g, f = g + 1 := ⟨f - 1, by omega⟩
  have hNP : NewParser s =
      Except.ok ⟨skipWhitespace (NewLexer s),
        ⟨TokType.eof, [], (skipWhitespace (NewLexer s)).pos - 1⟩⟩ := by
    simp only [NewParser, NextToken_eof h0]
  simp only [Parse, hNP, parseF]

/-- Witness for claim C9 at the two whitespace bytes space and tab. -/
theorem claim_C9_witness :
    Parse 1 [32, 9] = some (Except.error (GoErr.unexpectedToken TokType.eof)) :=
  claim_C9 [32, 9] 1 (by decide) (by decide)

/-- Claim C10, evaluation at the failing input.  The claim concludes that
Parse terminates on every finite input.  On the bytes of the input
left-bracket at-sign right-bracket the Go code recurses forever: advance
discards the scanning error at the at-sign leaving the parser state
unchanged, so parseValue and parseArray call each other on the identical
state; in the fueled model Parse returns no outcome whatever the fuel. -/
theorem claim_C10 : ParseDiverges [91, 64, 93] := by
  intro f
  have h := (stuckP_loop f).1
  have hNP : NewParser [91, 64, 93] = Except.ok stuckP := rfl
  simp only [Parse, hNP]
  rw [h]

end SmolParser
